import Mathlib

/-!
Verification of the Private State Toolkit (PST) core against its design
specification.  The development shallowly embeds the TypeScript SDK
(`src/sdk/index.ts`), the reconciliation scripts (`src/scripts/watch.ts`,
`src/scripts/observer.ts`, the increment/propose script) and — modelled from
the spec, since the on-chain Anchor program's Rust source is not part of the
client tree — the ledger state machine.

Bytes are modelled as `Nat` values (< 256 where meaningful) and buffers as
`List Nat`.  32-bit machine words are `Nat` with explicit `% 2 ^ 32`.
-/

namespace PST

/-! ## Byte-level utilities -/

/-- Big-endian 4-byte encoding of a 32-bit word (used by SHA-256 output). -/
def be4 (n : Nat) : List Nat :=
  [n / 2 ^ 24 % 256, n / 2 ^ 16 % 256, n / 2 ^ 8 % 256, n % 256]

/-- Big-endian 8-byte encoding (used by SHA-256 length padding). -/
def be8 (n : Nat) : List Nat :=
  [n / 2 ^ 56 % 256, n / 2 ^ 48 % 256, n / 2 ^ 40 % 256, n / 2 ^ 32 % 256,
   n / 2 ^ 24 % 256, n / 2 ^ 16 % 256, n / 2 ^ 8 % 256, n % 256]

/-- Value of a byte list read as a big-endian integer
(`Buffer` contents as one number, used by the GCM layer). -/
def bytesToNat (l : List Nat) : Nat :=
  l.foldl (fun acc b => acc * 256 + b) 0

/-- Little-endian value of a byte list (spec-side decoding helper). -/
def leVal : List Nat → Nat
  | [] => 0
  | b :: bs => b + 256 * leVal bs

/-- Spec-side fixed-width little-endian encoding: `leBytes w n` is the
`w`-byte little-endian encoding of `n`. -/
def leBytes : Nat → Nat → List Nat
  | 0, _ => []
  | w + 1, n => n % 256 :: leBytes w (n / 256)

/-- Lowercase hex digit for a value below 16 (as produced by
`Buffer.toString("hex")`). -/
def hexChar (n : Nat) : Char :=
  if n < 10 then Char.ofNat (48 + n) else Char.ofNat (87 + n)

/-- Two lowercase hex characters of one byte. -/
def byteToHex (b : Nat) : List Char :=
  [hexChar (b / 16), hexChar (b % 16)]

/-- Lowercase hex string of a byte buffer, as `Buffer.toString("hex")`. -/
def bytesToHex (l : List Nat) : String :=
  String.mk (l.flatMap byteToHex)

/-! ## SHA-256 (FIPS 180-4), as invoked through Node's
`createHash("sha256")` by the SDK. -/

/-- Right rotation of a 32-bit word. -/
def rotr (n w : Nat) : Nat :=
  ((w >>> n) ||| (w <<< (32 - n))) % 2 ^ 32

/-- SHA-256 round constants (decimal). -/
def shaK : List Nat :=
  [1116352408, 1899447441, 3049323471, 3921009573, 961987163,
   1508970993, 2453635748, 2870763221, 3624381080, 310598401,
   607225278, 1426881987, 1925078388, 2162078206, 2614888103,
   3248222580, 3835390401, 4022224774, 264347078, 604807628,
   770255983, 1249150122, 1555081692, 1996064986, 2554220882,
   2821834349, 2952996808, 3210313671, 3336571891, 3584528711,
   113926993, 338241895, 666307205, 773529912, 1294757372,
   1396182291, 1695183700, 1986661051, 2177026350, 2456956037,
   2730485921, 2820302411, 3259730800, 3345764771, 3516065817,
   3600352804, 4094571909, 275423344, 430227734, 506948616,
   659060556, 883997877, 958139571, 1322822218, 1537002063,
   1747873779, 1955562222, 2024104815, 2227730452, 2361852424,
   2428436474, 2756734187, 3204031479, 3329325298]

/-- SHA-256 big sigma 0. -/
def bsig0 (x : Nat) : Nat := rotr 2 x ^^^ rotr 13 x ^^^ rotr 22 x

/-- SHA-256 big sigma 1. -/
def bsig1 (x : Nat) : Nat := rotr 6 x ^^^ rotr 11 x ^^^ rotr 25 x

/-- SHA-256 small sigma 0. -/
def ssig0 (x : Nat) : Nat := rotr 7 x ^^^ rotr 18 x ^^^ (x >>> 3)

/-- SHA-256 small sigma 1. -/
def ssig1 (x : Nat) : Nat := rotr 17 x ^^^ rotr 19 x ^^^ (x >>> 10)

/-- SHA-256 working state: eight 32-bit words. -/
structure Sha256State where
  a : Nat
  b : Nat
  c : Nat
  d : Nat
  e : Nat
  f : Nat
  g : Nat
  h : Nat
deriving Repr, DecidableEq

/-- SHA-256 initial hash value (decimal). -/
def shaInit : Sha256State :=
  ⟨1779033703, 3144134277, 1013904242, 2773480762,
   1359893119, 2600822924, 528734635, 1541459225⟩

/-- Message-schedule word `i` of a 64-byte block. -/
def msgWord (block : List Nat) (i : Nat) : Nat :=
  if i < 16 then
    block.getD (4 * i) 0 * 2 ^ 24 + block.getD (4 * i + 1) 0 * 2 ^ 16 +
      block.getD (4 * i + 2) 0 * 2 ^ 8 + block.getD (4 * i + 3) 0
  else
    (ssig1 (msgWord block (i - 2)) + msgWord block (i - 7) +
      ssig0 (msgWord block (i - 15)) + msgWord block (i - 16)) % 2 ^ 32
termination_by i

/-- One SHA-256 compression round. -/
def shaRound (block : List Nat) (st : Sha256State) (i : Nat) : Sha256State :=
  let ch := (st.e &&& st.f) ^^^ ((st.e ^^^ (2 ^ 32 - 1)) &&& st.g)
  let maj := (st.a &&& st.b) ^^^ (st.a &&& st.c) ^^^ (st.b &&& st.c)
  let t1 := (st.h + bsig1 st.e + ch + shaK.getD i 0 + msgWord block i) % 2 ^ 32
  let t2 := (bsig0 st.a + maj) % 2 ^ 32
  ⟨(t1 + t2) % 2 ^ 32, st.a, st.b, st.c, (st.d + t1) % 2 ^ 32, st.e, st.f, st.g⟩

/-- SHA-256 compression of one 64-byte block into the running state. -/
def shaCompress (st : Sha256State) (block : List Nat) : Sha256State :=
  let r := (List.range 64).foldl (shaRound block) st
  ⟨(st.a + r.a) % 2 ^ 32, (st.b + r.b) % 2 ^ 32, (st.c + r.c) % 2 ^ 32,
   (st.d + r.d) % 2 ^ 32, (st.e + r.e) % 2 ^ 32, (st.f + r.f) % 2 ^ 32,
   (st.g + r.g) % 2 ^ 32, (st.h + r.h) % 2 ^ 32⟩

/-- Fold SHA-256 compression over consecutive 64-byte blocks. -/
def shaBlocks (st : Sha256State) (data : List Nat) : Sha256State :=
  if data = [] then st
  else shaBlocks (shaCompress st (data.take 64)) (data.drop 64)
termination_by data.length
decreasing_by
  simp only [List.length_drop]
  have : data.length ≠ 0 := by
    intro h
    exact (by assumption : data ≠ []) (List.eq_nil_of_length_eq_zero h)
  omega

/-- SHA-256 padding: append `0x80`, zeros to 56 mod 64, then the
bit length as 8 big-endian bytes. -/
def shaPad (msg : List Nat) : List Nat :=
  msg ++ 0x80 :: List.replicate ((119 - msg.length % 64) % 64) 0 ++
    be8 (8 * msg.length)

/-- Serialize the final state as the 32-byte digest. -/
def shaDigest (st : Sha256State) : List Nat :=
  be4 st.a ++ be4 st.b ++ be4 st.c ++ be4 st.d ++
    be4 st.e ++ be4 st.f ++ be4 st.g ++ be4 st.h

/-- SHA-256 of a byte list. -/
def sha256 (msg : List Nat) : List Nat :=
  shaDigest (shaBlocks shaInit (shaPad msg))

/-! ## Commitment (src/sdk/index.ts, `commitment`, lines 73-79)

`Buffer.alloc(8)` + `writeBigUInt64LE(nonce)` produce the eight
little-endian bytes of the nonce (for a nonce in `u64` range, the only
range `writeBigUInt64LE` accepts); the commitment is the SHA-256 of that
buffer concatenated with the packed payload. -/

/-- The eight bytes written by `nonceBuf.writeBigUInt64LE(nonce)`. -/
def nonceBufLE (nonce : Nat) : List Nat :=
  [nonce % 256, nonce / 256 % 256, nonce / 256 ^ 2 % 256, nonce / 256 ^ 3 % 256,
   nonce / 256 ^ 4 % 256, nonce / 256 ^ 5 % 256, nonce / 256 ^ 6 % 256,
   nonce / 256 ^ 7 % 256]

/-- `commitment(nonce, encryptedPayload)` from the SDK:
`sha256(nonce_as_8_bytes_LE || packed)`. -/
def commitment (nonce : Nat) (encryptedPayload : List Nat) : List Nat :=
  sha256 (nonceBufLE nonce ++ encryptedPayload)

/-! ## AES-256 (FIPS 197), the block cipher behind the SDK's
`createCipheriv("aes-256-gcm", ...)`.  The state is a 16-byte list in
column-major order; words are 4-byte lists. -/

/-- The AES S-box. -/
def sbox : List Nat :=
  [0x63, 0x7c, 0x77, 0x7b, 0xf2, 0x6b, 0x6f, 0xc5, 0x30, 0x01, 0x67, 0x2b,
   0xfe, 0xd7, 0xab, 0x76, 0xca, 0x82, 0xc9, 0x7d, 0xfa, 0x59, 0x47, 0xf0,
   0xad, 0xd4, 0xa2, 0xaf, 0x9c, 0xa4, 0x72, 0xc0, 0xb7, 0xfd, 0x93, 0x26,
   0x36, 0x3f, 0xf7, 0xcc, 0x34, 0xa5, 0xe5, 0xf1, 0x71, 0xd8, 0x31, 0x15,
   0x04, 0xc7, 0x23, 0xc3, 0x18, 0x96, 0x05, 0x9a, 0x07, 0x12, 0x80, 0xe2,
   0xeb, 0x27, 0xb2, 0x75, 0x09, 0x83, 0x2c, 0x1a, 0x1b, 0x6e, 0x5a, 0xa0,
   0x52, 0x3b, 0xd6, 0xb3, 0x29, 0xe3, 0x2f, 0x84, 0x53, 0xd1, 0x00, 0xed,
   0x20, 0xfc, 0xb1, 0x5b, 0x6a, 0xcb, 0xbe, 0x39, 0x4a, 0x4c, 0x58, 0xcf,
   0xd0, 0xef, 0xaa, 0xfb, 0x43, 0x4d, 0x33, 0x85, 0x45, 0xf9, 0x02, 0x7f,
   0x50, 0x3c, 0x9f, 0xa8, 0x51, 0xa3, 0x40, 0x8f, 0x92, 0x9d, 0x38, 0xf5,
   0xbc, 0xb6, 0xda, 0x21, 0x10, 0xff, 0xf3, 0xd2, 0xcd, 0x0c, 0x13, 0xec,
   0x5f, 0x97, 0x44, 0x17, 0xc4, 0xa7, 0x7e, 0x3d, 0x64, 0x5d, 0x19, 0x73,
   0x60, 0x81, 0x4f, 0xdc, 0x22, 0x2a, 0x90, 0x88, 0x46, 0xee, 0xb8, 0x14,
   0xde, 0x5e, 0x0b, 0xdb, 0xe0, 0x32, 0x3a, 0x0a, 0x49, 0x06, 0x24, 0x5c,
   0xc2, 0xd3, 0xac, 0x62, 0x91, 0x95, 0xe4, 0x79, 0xe7, 0xc8, 0x37, 0x6d,
   0x8d, 0xd5, 0x4e, 0xa9, 0x6c, 0x56, 0xf4, 0xea, 0x65, 0x7a, 0xae, 0x08,
   0xba, 0x78, 0x25, 0x2e, 0x1c, 0xa6, 0xb4, 0xc6, 0xe8, 0xdd, 0x74, 0x1f,
   0x4b, 0xbd, 0x8b, 0x8a, 0x70, 0x3e, 0xb5, 0x66, 0x48, 0x03, 0xf6, 0x0e,
   0x61, 0x35, 0x57, 0xb9, 0x86, 0xc1, 0x1d, 0x9e, 0xe1, 0xf8, 0x98, 0x11,
   0x69, 0xd9, 0x8e, 0x94, 0x9b, 0x1e, 0x87, 0xe9, 0xce, 0x55, 0x28, 0xdf,
   0x8c, 0xa1, 0x89, 0x0d, 0xbf, 0xe6, 0x42, 0x68, 0x41, 0x99, 0x2d, 0x0f,
   0xb0, 0x54, 0xbb, 0x16]

/-- S-box substitution of one byte. -/
def sub1 (b : Nat) : Nat := sbox.getD b 0

/-- Doubling in GF(2^8) modulo the AES polynomial. -/
def xtime (b : Nat) : Nat :=
  if b < 128 then b * 2 else (b * 2) ^^^ 0x11b

/-- Multiplication by 3 in GF(2^8). -/
def mul3 (b : Nat) : Nat := xtime b ^^^ b

/-- XOR of two 4-byte words. -/
def xorW (a b : List Nat) : List Nat :=
  [a.getD 0 0 ^^^ b.getD 0 0, a.getD 1 0 ^^^ b.getD 1 0,
   a.getD 2 0 ^^^ b.getD 2 0, a.getD 3 0 ^^^ b.getD 3 0]

/-- S-box substitution on a 4-byte word. -/
def subWord (a : List Nat) : List Nat :=
  [sub1 (a.getD 0 0), sub1 (a.getD 1 0), sub1 (a.getD 2 0), sub1 (a.getD 3 0)]

/-- One-byte left rotation of a 4-byte word. -/
def rotWord (a : List Nat) : List Nat :=
  [a.getD 1 0, a.getD 2 0, a.getD 3 0, a.getD 0 0]

/-- Round-constant word for key expansion (index `j = i / 8`, `1 ≤ j ≤ 7`
for AES-256). -/
def rconW (j : Nat) : List Nat :=
  [[0x01, 0x02, 0x04, 0x08, 0x10, 0x20, 0x40].getD (j - 1) 0, 0, 0, 0]

/-- Expanded key word `i` (AES-256 key schedule, `0 ≤ i < 60`). -/
def keyWord (key : List Nat) (i : Nat) : List Nat :=
  if i < 8 then
    [key.getD (4 * i) 0, key.getD (4 * i + 1) 0,
     key.getD (4 * i + 2) 0, key.getD (4 * i + 3) 0]
  else if i % 8 = 0 then
    xorW (keyWord key (i - 8)) (xorW (subWord (rotWord (keyWord key (i - 1)))) (rconW (i / 8)))
  else if i % 8 = 4 then
    xorW (keyWord key (i - 8)) (subWord (keyWord key (i - 1)))
  else
    xorW (keyWord key (i - 8)) (keyWord key (i - 1))
termination_by i

/-- Round key `r` (16 bytes, column-major). -/
def roundKey (key : List Nat) (r : Nat) : List Nat :=
  keyWord key (4 * r) ++ keyWord key (4 * r + 1) ++
    keyWord key (4 * r + 2) ++ keyWord key (4 * r + 3)

/-- AddRoundKey. -/
def addRoundKey (st rk : List Nat) : List Nat :=
  List.zipWith Nat.xor st rk

/-- SubBytes. -/
def subBytes (st : List Nat) : List Nat := st.map sub1

/-- ShiftRows on a column-major 16-byte state. -/
def shiftRows (s : List Nat) : List Nat :=
  [s.getD 0 0, s.getD 5 0, s.getD 10 0, s.getD 15 0,
   s.getD 4 0, s.getD 9 0, s.getD 14 0, s.getD 3 0,
   s.getD 8 0, s.getD 13 0, s.getD 2 0, s.getD 7 0,
   s.getD 12 0, s.getD 1 0, s.getD 6 0, s.getD 11 0]

/-- MixColumns on one column. -/
def mixCol (a b c d : Nat) : List Nat :=
  [xtime a ^^^ mul3 b ^^^ c ^^^ d,
   a ^^^ xtime b ^^^ mul3 c ^^^ d,
   a ^^^ b ^^^ xtime c ^^^ mul3 d,
   mul3 a ^^^ b ^^^ c ^^^ xtime d]

/-- MixColumns on the whole state. -/
def mixColumns (s : List Nat) : List Nat :=
  mixCol (s.getD 0 0) (s.getD 1 0) (s.getD 2 0) (s.getD 3 0) ++
    mixCol (s.getD 4 0) (s.getD 5 0) (s.getD 6 0) (s.getD 7 0) ++
    mixCol (s.getD 8 0) (s.getD 9 0) (s.getD 10 0) (s.getD 11 0) ++
    mixCol (s.getD 12 0) (s.getD 13 0) (s.getD 14 0) (s.getD 15 0)

/-- One full middle round of AES. -/
def aesRound (key : List Nat) (r : Nat) (st : List Nat) : List Nat :=
  addRoundKey (mixColumns (shiftRows (subBytes st))) (roundKey key r)

/-- AES-256 forward block cipher (14 rounds). -/
def aes256Block (key block : List Nat) : List Nat :=
  let s0 := addRoundKey block (roundKey key 0)
  let s13 := (List.range 13).foldl (fun st i => aesRound key (i + 1) st) s0
  addRoundKey (shiftRows (subBytes s13)) (roundKey key 14)

/-! ## GCM (NIST SP 800-38D) over AES-256, as provided by Node's
`aes-256-gcm` cipher with the default 16-byte tag. -/

/-- Big-endian 16-byte encoding of a 128-bit block value. -/
def natToBytes16 (n : Nat) : List Nat :=
  [n / 2 ^ 120 % 256, n / 2 ^ 112 % 256, n / 2 ^ 104 % 256, n / 2 ^ 96 % 256,
   n / 2 ^ 88 % 256, n / 2 ^ 80 % 256, n / 2 ^ 72 % 256, n / 2 ^ 64 % 256,
   n / 2 ^ 56 % 256, n / 2 ^ 48 % 256, n / 2 ^ 40 % 256, n / 2 ^ 32 % 256,
   n / 2 ^ 24 % 256, n / 2 ^ 16 % 256, n / 2 ^ 8 % 256, n % 256]

/-- The GCM `inc32` function: increment the low 32 bits of a block. -/
def inc32 (x : Nat) : Nat :=
  x / 2 ^ 32 * 2 ^ 32 + (x + 1) % 2 ^ 32

/-- One step of GF(2^128) multiplication (bits of `y` consumed MSB-first,
`v` the shifted multiplicand, `z` the accumulator). -/
def gmulAux : Nat → Nat → Nat → Nat → Nat
  | 0, _, z, _ => z
  | n + 1, y, z, v =>
    let z2 := if y / 2 ^ 127 % 2 = 1 then z ^^^ v else z
    let v2 := if v % 2 = 1 then (v / 2) ^^^ (0xe1 <<< 120) else v / 2
    gmulAux n (y * 2 % 2 ^ 128) z2 v2

/-- GCM multiplication in GF(2^128). -/
def gmul (x y : Nat) : Nat := gmulAux 128 y 0 x

/-- One GHASH block step: `y := (y xor block) * h`. -/
def ghashUpdate (h y block : Nat) : Nat := gmul (y ^^^ block) h

/-- GHASH over a byte string (zero-padded on the right to a block
multiple), starting from accumulator `y`. -/
def ghashChunks (h y : Nat) (data : List Nat) : Nat :=
  if data = [] then y
  else
    ghashChunks h
      (ghashUpdate h y (bytesToNat (data.take 16) * 256 ^ (16 - min data.length 16)))
      (data.drop 16)
termination_by data.length
decreasing_by
  simp only [List.length_drop]
  have : data.length ≠ 0 := by
    intro h0
    exact (by assumption : data ≠ []) (List.eq_nil_of_length_eq_zero h0)
  omega

/-- The GCM hash subkey `H = CIPH_K(0^128)`. -/
def gcmH (key : List Nat) : Nat :=
  bytesToNat (aes256Block key (natToBytes16 0))

/-- The pre-counter block `J0`: `iv || 0^31 || 1` for 12-byte IVs,
otherwise `GHASH_H(iv || pad || len64(iv))`. -/
def j0 (key iv : List Nat) : Nat :=
  if iv.length = 12 then bytesToNat iv * 2 ^ 32 + 1
  else ghashUpdate (gcmH key) (ghashChunks (gcmH key) 0 iv) (8 * iv.length % 2 ^ 64)

/-- CTR keystream: `len` bytes from counter blocks
`icb, inc32 icb, inc32² icb, …`. -/
def keystream (key : List Nat) (icb len : Nat) : List Nat :=
  ((List.range ((len + 15) / 16)).flatMap
    (fun i => aes256Block key (natToBytes16 (inc32^[i] icb)))).take len

/-- GCTR: XOR the input with the keystream. -/
def gctr (key : List Nat) (icb : Nat) (x : List Nat) : List Nat :=
  List.zipWith Nat.xor x (keystream key icb x.length)

/-- The 16-byte GCM authentication tag over a ciphertext (no additional
authenticated data, as in the SDK):
`MSB128(GHASH_H(C || pad || len64(A)=0 || len64(C)) xor CIPH_K(J0))`. -/
def gcmTag (key iv ct : List Nat) : List Nat :=
  let h := gcmH key
  let s := ghashUpdate h (ghashChunks h 0 ct) (8 * ct.length % 2 ^ 64)
  natToBytes16 (bytesToNat (aes256Block key (natToBytes16 (j0 key iv))) ^^^ s)

/-! ## Encrypted payloads (src/sdk/index.ts)

`EncryptedPayload`, `packEncryptedPayload`, `unpackEncryptedPayload`,
`encryptPayload` and `decryptPayload`.  The fresh 12-byte IV that
`encryptPayload` draws from `randomBytes(12)` is lifted to a parameter.
Failure (Node's `createCipheriv`/`createDecipheriv`/`final` throwing) is
modelled with `Option`: `createCipheriv("aes-256-gcm", key, iv)` rejects
keys that are not 32 bytes and empty IVs; `setAuthTag` without an explicit
`authTagLength` requires a 16-byte tag; `final` rejects a tag mismatch. -/

/-- `EncryptedPayload` components (src/sdk/index.ts lines 84-91). -/
structure EncryptedPayload where
  iv : List Nat
  tag : List Nat
  ciphertext : List Nat
deriving Repr, DecidableEq

/-- `packEncryptedPayload` (lines 168-170): `iv || tag || ciphertext`. -/
def packEncryptedPayload (payload : EncryptedPayload) : List Nat :=
  payload.iv ++ payload.tag ++ payload.ciphertext

/-- `unpackEncryptedPayload` (lines 180-185): `subarray(0,12)`,
`subarray(12,28)`, `subarray(28)` — with no length validation, exactly as
in the source. -/
def unpackEncryptedPayload (packed : List Nat) : EncryptedPayload :=
  { iv := packed.take 12, tag := (packed.drop 12).take 16,
    ciphertext := packed.drop 28 }

/-- `encryptPayload` (lines 124-134) with the random IV as a parameter:
AES-256-GCM encrypt, collect the tag, and pack. -/
def encryptPayload (key iv plaintext : List Nat) :
    Option (EncryptedPayload × List Nat) :=
  if key.length = 32 ∧ iv ≠ [] then
    let ciphertext := gctr key (inc32 (j0 key iv)) plaintext
    let tag := gcmTag key iv ciphertext
    let payload : EncryptedPayload := ⟨iv, tag, ciphertext⟩
    some (payload, packEncryptedPayload payload)
  else none

/-- `decryptPayload` (lines 153-158): unpack, set the tag, decrypt;
authentication failure yields `none` (the source throws). -/
def decryptPayload (key packed : List Nat) : Option (List Nat) :=
  let p := unpackEncryptedPayload packed
  if key.length = 32 ∧ p.iv ≠ [] ∧ p.tag.length = 16 then
    if gcmTag key p.iv p.ciphertext = p.tag then
      some (gctr key (inc32 (j0 key p.iv)) p.ciphertext)
    else none
  else none

/-! ## Ledger state machine

Modelled from the spec: the on-chain Anchor program (`Ledger State
Machine`, spec §4.2) is not part of the client source tree — only its
integration tests (src/unnamed/part_004) and its instruction-building
clients (src/sdk/index.ts) are.  The `Update` transition below follows
§4.2: caller must equal the current authority; valid iff `oldCommitment`
equals the stored commitment and the policy rule holds (StrictSequential:
`nextNonce = nonce + 1`; AllowSkips: `nextNonce > nonce`); on success
commitment and nonce are replaced; on failure the record is returned
unchanged inside an error, so there is no partial effect. -/

/-- Update policy (src/sdk/index.ts lines 98-103 and spec §3). -/
inductive UpdatePolicy where
  | strictSequential
  | allowSkips
deriving Repr, DecidableEq

/-- An `Active` ledger record (spec §3 `LedgerRecord`).  Authorities are
opaque identities. -/
structure LedgerRecord where
  authority : Nat
  commitment : List Nat
  nonce : Nat
  policy : UpdatePolicy
deriving Repr, DecidableEq

/-- Validation errors of the state machine (spec §7). -/
inductive LedgerError where
  | commitmentMismatch
  | invalidNonce
  | unauthorized
deriving Repr, DecidableEq

/-- The active policy's nonce rule (spec §4.2). -/
def nonceRuleOk (policy : UpdatePolicy) (current next : Nat) : Prop :=
  match policy with
  | .strictSequential => next = current + 1
  | .allowSkips => next > current

instance (policy : UpdatePolicy) (current next : Nat) :
    Decidable (nonceRuleOk policy current next) := by
  unfold nonceRuleOk
  cases policy <;> infer_instance

/-- Modelled from the spec: the `Update` instruction of the on-chain
program (spec §4.2), on an `Active` record. -/
def updateRecord (rec : LedgerRecord) (caller : Nat)
    (oldCommitment newCommitment : List Nat) (nextNonce : Nat) :
    Except LedgerError LedgerRecord :=
  if caller ≠ rec.authority then .error .unauthorized
  else if oldCommitment ≠ rec.commitment then .error .commitmentMismatch
  else if nonceRuleOk rec.policy rec.nonce nextNonce then
    .ok { rec with commitment := newCommitment, nonce := nextNonce }
  else .error .invalidNonce

/-! ## Status derivation (src/scripts/watch.ts, `render`, lines 65-140)

Local records mirror the script's own types; nonces stored as decimal
strings in the JSON files are modelled as the numbers they denote
(`BigInt(committed.nonce)` in the source), and commitments by their hex
strings, which the source compares for equality. -/

/-- Hex-encoded payload component of the local files. -/
structure PayloadHex where
  ivHex : String
  ciphertextHex : String
  tagHex : String
deriving Repr, DecidableEq

/-- The on-chain record as decoded by `watch.ts` (`ChainState`). -/
structure ChainState where
  nonce : Nat
  commitmentHex : String
deriving Repr, DecidableEq

/-- `CommittedState` of `watch.ts` (no policy field). -/
structure CommittedState where
  statePubkey : String
  nonce : Nat
  commitmentHex : String
  payload : PayloadHex
deriving Repr, DecidableEq

/-- `PendingState` of `watch.ts`. -/
structure PendingState where
  statePubkey : String
  fromNonce : Nat
  toNonce : Nat
  oldCommitmentHex : String
  newCommitmentHex : String
  newPayload : PayloadHex
  txSig : String
deriving Repr, DecidableEq

/-- The five named statuses plus the code's `"UNKNOWN"` default. -/
inductive SyncStatus where
  | unknown
  | diverged
  | landedPending
  | pending
  | inSync
  | stale
deriving Repr, DecidableEq

/-- `chainMatchesCommitted` (watch.ts lines 80-82). -/
def chainMatchesCommitted (chain : ChainState) (committed : CommittedState) : Bool :=
  chain.nonce == committed.nonce && chain.commitmentHex == committed.commitmentHex

/-- `pendingMatchesChain` (watch.ts lines 84-87). -/
def pendingMatchesChain (chain : ChainState) (pending : Option PendingState) : Bool :=
  match pending with
  | some p => chain.nonce == p.toNonce && chain.commitmentHex == p.newCommitmentHex
  | none => false

/-- The status chain of `watch.ts` `render` (lines 89-103). -/
def watchStatus (chain : ChainState) (committed : CommittedState)
    (pending : Option PendingState) : SyncStatus :=
  if committed.nonce > chain.nonce then .diverged
  else if pendingMatchesChain chain pending then .landedPending
  else if chainMatchesCommitted chain committed && pending.isSome then .pending
  else if chainMatchesCommitted chain committed then .inSync
  else if chain.nonce > committed.nonce ||
      chain.commitmentHex != committed.commitmentHex then .stale
  else .unknown

/-- File operations `render` can perform. -/
inductive WatchOp where
  | writeCommitted (c : CommittedState)
  | deletePending
deriving Repr, DecidableEq

/-- `render` of `watch.ts` (lines 65-140): the derived status plus the
ordered list of file operations (the decrypt-and-display tail performs no
writes and is elided).  On `LANDED_PENDING` with a pending record, the
promoted `Committed` is written atomically before the `Pending` file is
removed (lines 118-129). -/
def render (chain : ChainState) (committed : CommittedState)
    (pending : Option PendingState) : SyncStatus × List WatchOp :=
  let status := watchStatus chain committed pending
  match pending with
  | some p =>
    if status = .landedPending then
      (status,
       [.writeCommitted
          { statePubkey := committed.statePubkey, nonce := p.toNonce,
            commitmentHex := p.newCommitmentHex, payload := p.newPayload },
        .deletePending])
    else (status, [])
  | none => (status, [])

/-! ## Observer status (src/scripts/observer.ts, `render`, lines 46-113)

Same chain, with the policy byte included in the match and in the stale
disjunction. -/

/-- The on-chain record as decoded by `observer.ts` (includes policy). -/
structure ObsChainState where
  nonce : Nat
  commitmentHex : String
  policy : Nat
deriving Repr, DecidableEq

/-- `CommittedState` of `observer.ts` (has a policy field, no payload). -/
structure ObsCommittedState where
  statePubkey : String
  nonce : Nat
  commitmentHex : String
  policy : Nat
deriving Repr, DecidableEq

/-- `PendingState` of `observer.ts` (no payload). -/
structure ObsPendingState where
  statePubkey : String
  fromNonce : Nat
  toNonce : Nat
  oldCommitmentHex : String
  newCommitmentHex : String
  txSig : String
deriving Repr, DecidableEq

/-- `chainMatchesCommitted` of `observer.ts` (lines 61-64, includes the
policy byte). -/
def obsChainMatchesCommitted (chain : ObsChainState)
    (committed : ObsCommittedState) : Bool :=
  chain.nonce == committed.nonce &&
    chain.commitmentHex == committed.commitmentHex &&
    chain.policy == committed.policy

/-- `pendingMatchesChain` of `observer.ts` (lines 66-69). -/
def obsPendingMatchesChain (chain : ObsChainState)
    (pending : Option ObsPendingState) : Bool :=
  match pending with
  | some p => chain.nonce == p.toNonce && chain.commitmentHex == p.newCommitmentHex
  | none => false

/-- The status chain of `observer.ts` `render` (lines 71-86). -/
def observerStatus (chain : ObsChainState) (committed : ObsCommittedState)
    (pending : Option ObsPendingState) : SyncStatus :=
  if committed.nonce > chain.nonce then .diverged
  else if obsPendingMatchesChain chain pending then .landedPending
  else if obsChainMatchesCommitted chain committed && pending.isSome then .pending
  else if obsChainMatchesCommitted chain committed then .inSync
  else if chain.nonce > committed.nonce ||
      chain.commitmentHex != committed.commitmentHex ||
      chain.policy != committed.policy then .stale
  else .unknown

/-! ## Propose-transition protocol (the increment script,
src/unnamed/part_001, `main`)

The script's effects on the local store and the ledger are modelled as an
ordered operation trace plus an outcome.  External collaborators are
oracle inputs: the two local JSON files and the demo key as read, the
fetched on-chain record, the `--skip` argument, the fresh IV drawn by
`encryptPayload`, the submission result (`none` = `updatePrivateState`
threw) and the confirmation result.  The JSON counter
decode/increment/re-encode between decryption and re-encryption is an
opaque pure transformation `mutate` (application data, out of the core's
scope).  Hex fields of the local files are modelled by the byte lists
they encode. -/

/-- Payload component of the local files, as bytes. -/
structure IncPayload where
  iv : List Nat
  ciphertext : List Nat
  tag : List Nat
deriving Repr, DecidableEq

/-- The script's `CommittedState` (with policy). -/
structure IncCommitted where
  statePubkey : String
  nonce : Nat
  commitmentHex : String
  policy : Nat
  payload : IncPayload
deriving Repr, DecidableEq

/-- The script's `PendingState`. -/
structure IncPending where
  statePubkey : String
  fromNonce : Nat
  toNonce : Nat
  oldCommitmentHex : String
  newCommitmentHex : String
  newPayload : IncPayload
  txSig : String
deriving Repr, DecidableEq

/-- The decoded on-chain account (`readOnchainState`). -/
structure OnchainState where
  commitment : List Nat
  nonce : Nat
  policy : Nat
deriving Repr, DecidableEq

/-- Externally visible operations of the script, in program order. -/
inductive IncOp where
  | writeCommitted (c : IncCommitted)
  | writePending (p : IncPending)
  | submitUpdate (oldCommitment newCommitment : List Nat) (nextNonce : Nat)
  | deletePending
deriving Repr, DecidableEq

/-- Terminal outcome of a run. -/
inductive IncOutcome where
  | threw
  | pendingExists
  | localStale
  | success
deriving Repr, DecidableEq

/-- Oracle inputs of one run. -/
structure IncEnv where
  committed : Option IncCommitted
  pendingFile : Option IncPending
  demoKey : Option (List Nat)
  onchain : Option OnchainState
  skip : Nat
  freshIv : List Nat
  mutate : List Nat → List Nat
  submitSig : Option String
  confirmErr : Bool

/-- `payloadToPacked` of the script: `iv || tag || ciphertext`. -/
def payloadToPacked (p : IncPayload) : List Nat :=
  p.iv ++ p.tag ++ p.ciphertext

/-- The increment script's `main` (src/unnamed/part_001 lines 269-406):
read local state, refuse a second in-flight pending, check the chain
against `Committed`, resync the policy byte if it drifted, decrypt,
mutate, re-encrypt, stage `Pending`, submit, record the signature,
await confirmation, and either promote (durable `Committed` write, then
`Pending` delete) or discard `Pending` and rethrow. -/
def incMain (env : IncEnv) : List IncOp × IncOutcome :=
  match env.committed with
  | none => ([], .threw)
  | some committed =>
  match env.pendingFile with
  | some _ => ([], .pendingExists)
  | none =>
  match env.demoKey with
  | none => ([], .threw)
  | some key =>
  match env.onchain with
  | none => ([], .threw)
  | some onchain =>
  if onchain.nonce ≠ committed.nonce ∨
      bytesToHex onchain.commitment ≠ committed.commitmentHex then
    ([], .localStale)
  else
  let ops0 : List IncOp :=
    if onchain.policy ≠ committed.policy then
      [.writeCommitted { committed with policy := onchain.policy }]
    else []
  match decryptPayload key (payloadToPacked committed.payload) with
  | none => (ops0, .threw)
  | some plaintext =>
  match encryptPayload key env.freshIv (env.mutate plaintext) with
  | none => (ops0, .threw)
  | some (newPayload, nextPacked) =>
  if env.skip > 0 ∧ onchain.policy ≠ 1 then (ops0, .threw)
  else
  let nextNonce := onchain.nonce + 1 + env.skip
  let newCommit := commitment nextNonce nextPacked
  let pending : IncPending :=
    { statePubkey := committed.statePubkey, fromNonce := onchain.nonce,
      toNonce := nextNonce, oldCommitmentHex := bytesToHex onchain.commitment,
      newCommitmentHex := bytesToHex newCommit,
      newPayload := ⟨newPayload.iv, newPayload.ciphertext, newPayload.tag⟩,
      txSig := "" }
  match env.submitSig with
  | none =>
    (ops0 ++
      [.writePending pending,
       .submitUpdate onchain.commitment newCommit nextNonce,
       .deletePending],
     .threw)
  | some sig =>
    if env.confirmErr then
      (ops0 ++
        [.writePending pending,
         .submitUpdate onchain.commitment newCommit nextNonce,
         .writePending { pending with txSig := sig },
         .deletePending],
       .threw)
    else
      (ops0 ++
        [.writePending pending,
         .submitUpdate onchain.commitment newCommit nextNonce,
         .writePending { pending with txSig := sig },
         .writeCommitted
           { statePubkey := committed.statePubkey, nonce := nextNonce,
             commitmentHex := bytesToHex newCommit, policy := onchain.policy,
             payload := ⟨newPayload.iv, newPayload.ciphertext, newPayload.tag⟩ },
         .deletePending],
       .success)

/-- A trace satisfies `submitCovered staged ops` when every ledger
submission in `ops` is preceded by a durably written `Pending` record
describing that submission (`staged` carries the most recent such
record). -/
def submitCovered : Option IncPending → List IncOp → Prop
  | _, [] => True
  | _, .writePending p :: rest => submitCovered (some p) rest
  | staged, .submitUpdate oldC newC nn :: rest =>
    (∃ p, staged = some p ∧ p.toNonce = nn ∧
      p.newCommitmentHex = bytesToHex newC ∧
      p.oldCommitmentHex = bytesToHex oldC) ∧ submitCovered staged rest
  | staged, _ :: rest => submitCovered staged rest

/-- Recognizer for `writePending` ops. -/
def isWritePendingOp : IncOp → Bool
  | .writePending _ => true
  | _ => false

/-- Recognizer for `writeCommitted` ops. -/
def isWriteCommittedOp : IncOp → Bool
  | .writeCommitted _ => true
  | _ => false

/-- Failure semantics of a run result: whenever the run threw after
staging a `Pending` record, no `Committed` write occurs from the staging
point on, and the final operation deletes the `Pending` file. -/
def discardsOnFailure (r : List IncOp × IncOutcome) : Prop :=
  r.2 = IncOutcome.threw →
    (∃ p, IncOp.writePending p ∈ r.1) →
      ((r.1.dropWhile (fun o => !isWritePendingOp o)).all
          (fun o => !isWriteCommittedOp o) = true ∧
        r.1.getLast? = some IncOp.deletePending)

/-! ## Helper lemmas -/

/-- Every SHA-256 digest is 32 bytes. -/
theorem sha256_length (msg : List Nat) : (sha256 msg).length = 32 := by
  simp [sha256, shaDigest, be4]

/-- The buffer written by `writeBigUInt64LE` is the fixed-width 8-byte
little-endian encoding. -/
theorem nonceBufLE_eq_leBytes (n : Nat) : nonceBufLE n = leBytes 8 n := by
  simp [nonceBufLE, leBytes, Nat.div_div_eq_div_mul]

/-- The little-endian encoding decodes to the encoded value when it fits
the width. -/
theorem leVal_leBytes (w : Nat) : ∀ n : Nat, n < 256 ^ w → leVal (leBytes w n) = n := by
  induction w with
  | zero => intro n h; interval_cases n; rfl
  | succ w ih =>
    intro n h
    have hdiv : n / 256 < 256 ^ w := by
      rw [Nat.div_lt_iff_lt_mul (by norm_num)]
      calc n < 256 ^ (w + 1) := h
        _ = 256 ^ w * 256 := by ring
    simp only [leBytes, leVal, ih (n / 256) hdiv]
    omega

/-- Round-trip of `pack`/`unpack` for well-formed components (12-byte IV,
16-byte tag). -/
theorem unpack_pack_aux (x : EncryptedPayload) (hiv : x.iv.length = 12)
    (htag : x.tag.length = 16) :
    unpackEncryptedPayload (packEncryptedPayload x) = x := by
  obtain ⟨iv, tag, ct⟩ := x
  simp only at hiv htag
  simp only [packEncryptedPayload, unpackEncryptedPayload, List.append_assoc]
  congr 1
  · rw [← hiv, List.take_left]
  · rw [← hiv, List.drop_left, ← htag, List.take_left]
  · have h28 : (28 : Nat) = 12 + 16 := by norm_num
    rw [h28, ← List.drop_drop, ← hiv, List.drop_left, ← htag, List.drop_left]

/-- Every AES round key is 16 bytes. -/
theorem keyWord_length (key : List Nat) (i : Nat) : (keyWord key i).length = 4 := by
  rw [keyWord]
  split
  · rfl
  split
  · rfl
  split
  · rfl
  · rfl

/-- Round keys are 16 bytes. -/
theorem roundKey_length (key : List Nat) (r : Nat) : (roundKey key r).length = 16 := by
  simp [roundKey, keyWord_length]

/-- The AES block function always produces 16 bytes. -/
theorem aes256Block_length (key block : List Nat) :
    (aes256Block key block).length = 16 := by
  have hshift : ∀ s : List Nat, (shiftRows s).length = 16 := fun _ => rfl
  simp [aes256Block, addRoundKey, hshift, roundKey_length]

/-- The CTR keystream has exactly the requested length. -/
theorem keystream_length (key : List Nat) (icb len : Nat) :
    (keystream key icb len).length = len := by
  have hblocks :
      ((List.range ((len + 15) / 16)).flatMap
        (fun i => aes256Block key (natToBytes16 (inc32^[i] icb)))).length =
        16 * ((len + 15) / 16) := by
    rw [List.length_flatMap]
    simp only [Function.comp_def]
    have hmap :
        (List.range ((len + 15) / 16)).map
            (fun i => (aes256Block key (natToBytes16 (inc32^[i] icb))).length) =
          List.replicate ((len + 15) / 16) 16 := by
      rw [List.eq_replicate_iff]
      constructor
      · simp
      · intro b hb
        simp only [List.mem_map] at hb
        obtain ⟨i, _, hi⟩ := hb
        rw [← hi, aes256Block_length]
    rw [hmap, List.sum_replicate, smul_eq_mul, Nat.mul_comm]
  have hge : len ≤ 16 * ((len + 15) / 16) := by
    have hdm := Nat.div_add_mod (len + 15) 16
    have hlt : (len + 15) % 16 < 16 := Nat.mod_lt _ (by norm_num)
    omega
  simp [keystream, hblocks, hge]

/-- XOR-ing twice with the same stream is the identity. -/
theorem zipWith_xor_cancel :
    ∀ x ks : List Nat, ks.length = x.length →
      List.zipWith Nat.xor (List.zipWith Nat.xor x ks) ks = x := by
  intro x
  induction x with
  | nil => intro ks _; simp
  | cons a x ih =>
    intro ks h
    cases ks with
    | nil => simp at h
    | cons b ks =>
      simp only [List.zipWith, List.cons.injEq]
      constructor
      · show a ^^^ b ^^^ b = a
        rw [Nat.xor_assoc, Nat.xor_self, Nat.xor_zero]
      · exact ih ks (by simpa using h)

/-- GCTR is an involution (the heart of GCM decryption). -/
theorem gctr_gctr (key : List Nat) (icb : Nat) (x : List Nat) :
    gctr key icb (gctr key icb x) = x := by
  unfold gctr
  rw [List.length_zipWith, keystream_length, Nat.min_self]
  exact zipWith_xor_cancel x _ (keystream_length key icb x.length)

/-- GCM tags are 16 bytes. -/
theorem gcmTag_length (key iv ct : List Nat) : (gcmTag key iv ct).length = 16 := rfl

/-! ## Claim theorems -/

/-- C4: `unpackEncryptedPayload` does NOT fail closed on inputs shorter
than 28 bytes.  On the 3-byte input `[0, 1, 2]` the source's unchecked
`subarray` calls silently return a truncated IV, an empty tag and an
empty ciphertext, contradicting the spec's "must fail closed (reject)". -/
theorem unpack_short_input_silent :
    unpackEncryptedPayload [0, 1, 2] =
      { iv := [0, 1, 2], tag := [], ciphertext := [] } := rfl

/-- C6 counterexample: `unpack(pack(x)) == x` fails for a payload whose
IV is not 12 bytes — packing `{iv := [], tag := [], ciphertext := [1]}`
yields `[1]`, which unpacks to `{iv := [1], tag := [], ciphertext := []}`. -/
theorem unpack_pack_cex :
    unpackEncryptedPayload (packEncryptedPayload ⟨[], [], [1]⟩) ≠
      (⟨[], [], [1]⟩ : EncryptedPayload) := by decide

/-- C6 (amended): for every payload whose components have the wire
format's sizes (12-byte IV, 16-byte tag), `unpack (pack x) = x`
byte-exactly. -/
theorem unpack_pack_roundtrip (x : EncryptedPayload) (hiv : x.iv.length = 12)
    (htag : x.tag.length = 16) :
    unpackEncryptedPayload (packEncryptedPayload x) = x :=
  unpack_pack_aux x hiv htag

/-- C6 witness: the round-trip at a concrete well-formed payload. -/
theorem unpack_pack_roundtrip_witness :
    unpackEncryptedPayload
        (packEncryptedPayload ⟨List.replicate 12 0, List.replicate 16 1, [7]⟩) =
      (⟨List.replicate 12 0, List.replicate 16 1, [7]⟩ : EncryptedPayload) :=
  unpack_pack_roundtrip _ (by simp) (by simp)

/-- C7: for every nonce in `u64` range and every packed payload, the
SDK's `commitment` is the 32-byte SHA-256 digest of the fixed-width
8-byte little-endian encoding of the nonce concatenated with the payload
(the encoding really is little-endian fixed-width: it has 8 bytes and
decodes back to the nonce).  Determinism is inherent: the function is
pure. -/
theorem commitment_matches_spec (n : Nat) (b : List Nat) (h : n < 2 ^ 64) :
    commitment n b = sha256 (leBytes 8 n ++ b) ∧
      (commitment n b).length = 32 ∧
      (leBytes 8 n).length = 8 ∧ leVal (leBytes 8 n) = n := by
  refine ⟨?_, sha256_length _, ?_, ?_⟩
  · rw [commitment, nonceBufLE_eq_leBytes]
  · simp [leBytes]
  · exact leVal_leBytes 8 n (by norm_num at h ⊢; omega)

/-- C7 witness: the commitment formula at nonce 5 and payload `[1,2,3]`. -/
theorem commitment_matches_spec_witness :
    commitment 5 [1, 2, 3] = sha256 (leBytes 8 5 ++ [1, 2, 3]) ∧
      (commitment 5 [1, 2, 3]).length = 32 :=
  ⟨(commitment_matches_spec 5 [1, 2, 3] (by norm_num)).1,
   (commitment_matches_spec 5 [1, 2, 3] (by norm_num)).2.1⟩

/-- C5: for every 32-byte key, every plaintext and every (fresh, 12-byte)
IV, decrypting the packed output of encryption with the same key succeeds
and recovers the plaintext exactly. -/
theorem encrypt_decrypt_roundtrip (key iv plaintext : List Nat)
    (hkey : key.length = 32) (hiv : iv.length = 12) :
    (encryptPayload key iv plaintext).map (fun r => decryptPayload key r.2) =
      some (some plaintext) := by
  have hivne : iv ≠ [] := by
    intro hnil
    rw [hnil] at hiv
    simp at hiv
  rw [encryptPayload, if_pos ⟨hkey, hivne⟩]
  simp only [Option.map_some']
  rw [decryptPayload]
  have hup :
      unpackEncryptedPayload
          (packEncryptedPayload
            ⟨iv, gcmTag key iv (gctr key (inc32 (j0 key iv)) plaintext),
             gctr key (inc32 (j0 key iv)) plaintext⟩) =
        ⟨iv, gcmTag key iv (gctr key (inc32 (j0 key iv)) plaintext),
         gctr key (inc32 (j0 key iv)) plaintext⟩ :=
    unpack_pack_aux _ hiv (gcmTag_length _ _ _)
  rw [hup]
  rw [if_pos ⟨hkey, hivne, gcmTag_length _ _ _⟩, if_pos rfl, gctr_gctr]

/-- C5 witness: the round-trip at a concrete key, IV and plaintext. -/
theorem encrypt_decrypt_roundtrip_witness :
    (encryptPayload (List.replicate 32 7) (List.replicate 12 3) [1, 2]).map
        (fun r => decryptPayload (List.replicate 32 7) r.2) =
      some (some [1, 2]) :=
  encrypt_decrypt_roundtrip _ _ _ (by simp) (by simp)

/-- C10: the status derivation is total over the five named statuses —
the `"UNKNOWN"` default of both `watch.ts` and `observer.ts` is
unreachable for every combination of chain record, `Committed` record
and optional `Pending` record.  (Exactly one status is assigned by
construction: the derivation is a single `if` chain.) -/
theorem status_derivation_total (c : ChainState) (m : CommittedState)
    (p : Option PendingState) (oc : ObsChainState) (om : ObsCommittedState)
    (op : Option ObsPendingState) :
    watchStatus c m p ≠ SyncStatus.unknown ∧
      observerStatus oc om op ≠ SyncStatus.unknown := by
  constructor
  · unfold watchStatus
    split
    · simp
    split
    · simp
    split
    · simp
    split
    · simp
    split
    · simp
    rename_i h1 h2 h3 h4 h5
    exfalso
    simp only [chainMatchesCommitted, Bool.and_eq_true, beq_iff_eq,
      not_and] at h4
    simp only [Bool.or_eq_true, bne_iff_ne, ne_eq, decide_eq_true_eq,
      not_or, not_not] at h5
    exact h4 (by omega) h5.2
  · unfold observerStatus
    split
    · simp
    split
    · simp
    split
    · simp
    split
    · simp
    split
    · simp
    rename_i h1 h2 h3 h4 h5
    exfalso
    simp only [obsChainMatchesCommitted, Bool.and_eq_true, beq_iff_eq,
      not_and] at h4
    simp only [Bool.or_eq_true, bne_iff_ne, ne_eq, decide_eq_true_eq,
      not_or, not_not] at h5
    obtain ⟨⟨hn5, hc5⟩, hp5⟩ := h5
    exact h4 ⟨by omega, hc5⟩ hp5

/-- C1 counterexample: the claim's clauses fail as stated on two concrete
inputs.  (1) Ledger equals `Committed` and a `Pending` exists whose
target also equals the ledger: the code reports `LANDED_PENDING`, not
`PENDING` as the claim's second clause demands.  (2) `Committed`'s nonce
exceeds the ledger's while the commitment also differs and no `Pending`
matches: the code reports `DIVERGED`, not `STALE` as the claim's third
clause demands. -/
theorem watch_status_classification_cex :
    (watchStatus ⟨5, "aa"⟩ ⟨"pk", 5, "aa", ⟨"", "", ""⟩⟩
        (some ⟨"pk", 4, 5, "cc", "aa", ⟨"", "", ""⟩, ""⟩) =
        SyncStatus.landedPending ∧
      SyncStatus.landedPending ≠ SyncStatus.pending) ∧
    (watchStatus ⟨3, "bb"⟩ ⟨"pk", 5, "aa", ⟨"", "", ""⟩⟩ none =
        SyncStatus.diverged ∧
      SyncStatus.diverged ≠ SyncStatus.stale) := by
  refine ⟨⟨?_, by decide⟩, ⟨?_, by decide⟩⟩ <;> rfl

/-- C1 (amended): the status derivation classifies as the spec defines,
with the code's precedence made explicit: IN_SYNC when the ledger equals
`Committed` and no `Pending` exists; PENDING when the ledger equals
`Committed`, a `Pending` exists, and the ledger does not equal
`Pending`'s target; STALE when the ledger's nonce exceeds `Committed`'s
or its commitment differs, the ledger does not match `Pending`'s target,
and `Committed`'s nonce does not exceed the ledger's; and DIVERGED
whenever `Committed`'s nonce exceeds the ledger's (never silently
repaired — it takes precedence over every other status). -/
theorem watch_status_classification (chain : ChainState)
    (committed : CommittedState) (pending : Option PendingState) :
    (chain.nonce = committed.nonce →
      chain.commitmentHex = committed.commitmentHex →
      pending = none →
      watchStatus chain committed pending = SyncStatus.inSync) ∧
    (∀ p, pending = some p →
      chain.nonce = committed.nonce →
      chain.commitmentHex = committed.commitmentHex →
      ¬(chain.nonce = p.toNonce ∧ chain.commitmentHex = p.newCommitmentHex) →
      watchStatus chain committed pending = SyncStatus.pending) ∧
    ((chain.nonce > committed.nonce ∨
        chain.commitmentHex ≠ committed.commitmentHex) →
      (∀ p, pending = some p →
        ¬(chain.nonce = p.toNonce ∧ chain.commitmentHex = p.newCommitmentHex)) →
      committed.nonce ≤ chain.nonce →
      watchStatus chain committed pending = SyncStatus.stale) ∧
    (committed.nonce > chain.nonce →
      watchStatus chain committed pending = SyncStatus.diverged) := by
  refine ⟨?_, ?_, ?_, ?_⟩
  · intro hn hc hp
    subst hp
    unfold watchStatus
    rw [if_neg (by omega)]
    simp [pendingMatchesChain, chainMatchesCommitted, hn, hc]
  · intro p hp hn hc hnp
    subst hp
    unfold watchStatus
    rw [if_neg (by omega)]
    have hpm : pendingMatchesChain chain (some p) = false := by
      simp only [pendingMatchesChain, Bool.and_eq_true, beq_iff_eq,
        Bool.eq_false_iff, ne_eq]
      intro hcontra
      exact hnp (by simpa using hcontra)
    rw [hpm]
    simp [chainMatchesCommitted, hn, hc]
  · intro hdiff hnp hle
    unfold watchStatus
    rw [if_neg (by omega)]
    have hpm : pendingMatchesChain chain pending = false := by
      cases pending with
      | none => rfl
      | some p =>
        simp only [pendingMatchesChain, Bool.and_eq_true, beq_iff_eq,
          Bool.eq_false_iff, ne_eq]
        intro hcontra
        exact hnp p rfl (by simpa using hcontra)
    rw [hpm]
    have hcm : chainMatchesCommitted chain committed = false := by
      simp only [chainMatchesCommitted, Bool.and_eq_true, beq_iff_eq,
        Bool.eq_false_iff, ne_eq]
      intro hcontra
      rcases hdiff with h | h
      · omega
      · exact h hcontra.2
    rw [hcm]
    simp only [Bool.false_eq_true, if_false, Bool.false_and, if_neg
      (by simp : ¬(false = true))]
    rw [if_pos]
    rcases hdiff with h | h
    · simp [h]
    · simp [h]
  · intro hgt
    unfold watchStatus
    rw [if_pos hgt]

/-- C1 witness: the DIVERGED clause at a concrete input. -/
theorem watch_status_classification_witness :
    watchStatus ⟨4, "aa"⟩ ⟨"pk", 7, "bb", ⟨"", "", ""⟩⟩ none =
      SyncStatus.diverged :=
  (watch_status_classification ⟨4, "aa"⟩ ⟨"pk", 7, "bb", ⟨"", "", ""⟩⟩
    none).2.2.2 (by norm_num)

/-- C2 counterexample: a state in which the ledger equals `Pending`'s
target but `Committed`'s nonce exceeds the ledger's — DIVERGED takes
precedence in the code, so `render` does not report `LANDED_PENDING` and
performs no promotion. -/
theorem landed_pending_promotes_cex :
    render ⟨3, "bb"⟩ ⟨"pk", 5, "aa", ⟨"", "", ""⟩⟩
        (some ⟨"pk", 2, 3, "cc", "bb", ⟨"x", "y", "z"⟩, ""⟩) =
      (SyncStatus.diverged, []) ∧
    SyncStatus.diverged ≠ SyncStatus.landedPending := by
  refine ⟨?_, by decide⟩
  rfl

/-- C2 (amended): whenever the observed ledger record equals the
`Pending` record's target (ledger nonce = `toNonce`, ledger commitment =
`newCommitmentHex`) and `Committed`'s nonce does not exceed the
ledger's, `render` reports `LANDED_PENDING` and performs the promotion
itself: the new `Committed` record — nonce, commitment and payload taken
from `Pending` — is written (atomically, hence durably) strictly before
the `Pending` file is deleted, as witnessed by the order of the returned
operation list. -/
theorem landed_pending_promotes (chain : ChainState)
    (committed : CommittedState) (p : PendingState)
    (hnd : committed.nonce ≤ chain.nonce)
    (hn : chain.nonce = p.toNonce)
    (hc : chain.commitmentHex = p.newCommitmentHex) :
    render chain committed (some p) =
      (SyncStatus.landedPending,
       [WatchOp.writeCommitted
          { statePubkey := committed.statePubkey, nonce := p.toNonce,
            commitmentHex := p.newCommitmentHex, payload := p.newPayload },
        WatchOp.deletePending]) := by
  have hstatus : watchStatus chain committed (some p) = .landedPending := by
    unfold watchStatus
    rw [if_neg (by omega)]
    rw [if_pos (by simp [pendingMatchesChain, hn, hc])]
  unfold render
  rw [hstatus]
  simp

/-- C2 witness: promotion at a concrete landed pending state. -/
theorem landed_pending_promotes_witness :
    render ⟨6, "cc"⟩ ⟨"pk", 5, "aa", ⟨"", "", ""⟩⟩
        (some ⟨"pk", 5, 6, "aa", "cc", ⟨"i", "c", "t"⟩, "sig"⟩) =
      (SyncStatus.landedPending,
       [WatchOp.writeCommitted ⟨"pk", 6, "cc", ⟨"i", "c", "t"⟩⟩,
        WatchOp.deletePending]) :=
  landed_pending_promotes _ _ _ (by norm_num) rfl rfl

/-- C3: for every `Active` ledger record, an `Update` by the current
authority succeeds — replacing exactly the commitment and nonce — if and
only if `oldCommitment` equals the stored commitment and the active
policy's nonce rule holds (StrictSequential: `nextNonce = nonce + 1`;
AllowSkips: `nextNonce > nonce`); every violating `Update` is rejected
with an error, and in the `Except` model an error carries no new record,
so a rejection has no partial effect. -/
theorem update_transition_validation (rec : LedgerRecord) (caller : Nat)
    (oldC newC : List Nat) (nn : Nat) (hauth : caller = rec.authority) :
    (updateRecord rec caller oldC newC nn =
        .ok { rec with commitment := newC, nonce := nn } ↔
      oldC = rec.commitment ∧ nonceRuleOk rec.policy rec.nonce nn) ∧
    (rec.policy = .strictSequential →
      (nonceRuleOk rec.policy rec.nonce nn ↔ nn = rec.nonce + 1)) ∧
    (rec.policy = .allowSkips →
      (nonceRuleOk rec.policy rec.nonce nn ↔ nn > rec.nonce)) ∧
    (¬(oldC = rec.commitment ∧ nonceRuleOk rec.policy rec.nonce nn) →
      ∃ e, updateRecord rec caller oldC newC nn = .error e) := by
  have hne : ¬caller ≠ rec.authority := by simpa using hauth
  refine ⟨?_, ?_, ?_, ?_⟩
  · constructor
    · intro hok
      unfold updateRecord at hok
      rw [if_neg hne] at hok
      by_cases hcm : oldC ≠ rec.commitment
      · rw [if_pos hcm] at hok
        exact absurd hok (by simp)
      · rw [if_neg hcm] at hok
        by_cases hrule : nonceRuleOk rec.policy rec.nonce nn
        · exact ⟨not_not.mp hcm, hrule⟩
        · rw [if_neg hrule] at hok
          exact absurd hok (by simp)
    · intro ⟨hcm, hrule⟩
      unfold updateRecord
      rw [if_neg hne, if_neg (by simpa using hcm), if_pos hrule]
  · intro hp
    rw [hp]
    exact Iff.rfl
  · intro hp
    rw [hp]
    exact Iff.rfl
  · intro hbad
    unfold updateRecord
    rw [if_neg hne]
    by_cases hcm : oldC ≠ rec.commitment
    · exact ⟨.commitmentMismatch, by rw [if_pos hcm]⟩
    · have hrule : ¬nonceRuleOk rec.policy rec.nonce nn := by
        intro hr
        exact hbad ⟨not_not.mp hcm, hr⟩
      exact ⟨.invalidNonce, by rw [if_neg hcm, if_neg hrule]⟩

/-- C3 witness: a strict-sequential record accepts the correctly chained
update at a concrete input. -/
theorem update_transition_validation_witness :
    updateRecord ⟨1, [0], 5, .strictSequential⟩ 1 [0] [9] 6 =
      .ok ⟨1, [9], 6, .strictSequential⟩ :=
  (update_transition_validation ⟨1, [0], 5, .strictSequential⟩ 1 [0] [9] 6
    rfl).1.mpr ⟨rfl, by decide⟩

/-- C8: in every execution of the propose-transition script, every
ledger submission in the operation trace is strictly preceded by a
durably persisted `Pending` record describing it (same target nonce, same
new commitment, same old commitment) — no submission ever occurs without
a staged `Pending`. -/
theorem submission_requires_staged_pending (env : IncEnv) :
    submitCovered none (incMain env).1 := by
  obtain ⟨committed, pendingFile, demoKey, onchain, skip, freshIv, mutate,
    submitSig, confirmErr⟩ := env
  cases committed with
  | none => trivial
  | some committed =>
  cases pendingFile with
  | some p => trivial
  | none =>
  cases demoKey with
  | none => trivial
  | some key =>
  cases onchain with
  | none => trivial
  | some onchain =>
  simp only [incMain]
  split
  · trivial
  split
  · split <;> trivial
  split
  · split <;> trivial
  split
  · split <;> trivial
  split
  · split <;> exact ⟨⟨_, rfl, rfl, rfl, rfl⟩, trivial⟩
  split
  · split <;> exact ⟨⟨_, rfl, rfl, rfl, rfl⟩, trivial⟩
  · split <;> exact ⟨⟨_, rfl, rfl, rfl, rfl⟩, trivial⟩

/-- C9: in every execution of the propose-transition script that fails
after staging (the submission throws, or confirmation reports failure),
the `Pending` record is discarded without being promoted: from the
staging write onwards no `Committed` write occurs, and the final
operation deletes the `Pending` file. -/
theorem failure_discards_staged_pending (env : IncEnv) :
    discardsOnFailure (incMain env) := by
  obtain ⟨committed, pendingFile, demoKey, onchain, skip, freshIv, mutate,
    submitSig, confirmErr⟩ := env
  cases committed with
  | none => intro _ h; simp [incMain] at h
  | some committed =>
  cases pendingFile with
  | some p => intro h; simp [incMain] at h
  | none =>
  cases demoKey with
  | none => intro _ h; simp [incMain] at h
  | some key =>
  cases onchain with
  | none => intro _ h; simp [incMain] at h
  | some onchain =>
  simp only [discardsOnFailure, incMain]
  split
  · intro h; simp at h
  split
  · split <;> (intro _ hmem; exfalso; simp at hmem)
  split
  · split <;> (intro _ hmem; exfalso; simp at hmem)
  split
  · split <;> (intro _ hmem; exfalso; simp at hmem)
  split
  · split <;> exact fun _ _ => ⟨rfl, rfl⟩
  split
  · split <;> exact fun _ _ => ⟨rfl, rfl⟩
  · intro h
    simp at h

end PST



